import Mathlib

/-!
Verification of the DotDynamics simulation core (frame recorder, run
comparator, time scrubber, session parameter resynchronisation, and the
vertical-motion physics models).

Shallow embedding conventions: JavaScript numbers are modelled as exact
rationals, except where the source calls Math.sqrt, which is modelled over
the reals with Real.sqrt. JavaScript Infinity (returned by the flight-time
helpers for a non-positive gravity) is modelled as the top element of
WithTop. Throwing constructors are modelled as Except values. The one piece
of reference semantics a claim needs (the recorder handing out its live
array) is modelled with an explicit array store indexed by allocation ids.
-/

namespace DotDynamics

/-- RecordedFrame (engines/analysis/types.ts, the shape recorded by
useSimulationRecorder and serialised by exportCSV): a flat tuple of numbers
keyed by simulation time. -/
structure RecordedFrame where
  time : ℚ := 0
  positionX : ℚ := 0
  positionY : ℚ := 0
  displacement : ℚ := 0
  height : ℚ := 0
  velocity : ℚ := 0
  velocityX : ℚ := 0
  velocityY : ℚ := 0
  acceleration : ℚ := 0
  ke : ℚ := 0
  pe : ℚ := 0
  totalEnergy : ℚ := 0
  deriving DecidableEq

namespace Recorder

/-- const MAX_FRAMES = 3000 (useSimulationRecorder). -/
def MAX_FRAMES : ℕ := 3000

/-- const MIN_TIME_DELTA = 0.016 (useSimulationRecorder). -/
def MIN_TIME_DELTA : ℚ := 2/125

/-- The ref cells of useSimulationRecorder that recordFrame touches:
framesRef and lastTimeRef (lastTimeRef starts at -1). -/
structure State where
  frames : List RecordedFrame
  lastTime : ℚ
  deriving DecidableEq

def initState : State := { frames := [], lastTime := -1 }

/-- old.filter((unused, i) => i % 2 === 0): keep the elements at even
indices. -/
def everySecond (l : List RecordedFrame) : List RecordedFrame :=
  (l.enum.filter fun p => p.1 % 2 == 0).map Prod.snd

/-- recordFrame (useSimulationRecorder): dedup by MIN_TIME_DELTA, push,
then downsample when the buffer exceeds MAX_FRAMES by keeping every 2nd
frame of the first MAX_FRAMES / 2 entries and all later entries. -/
def recordFrame (s : State) (f : RecordedFrame) : State :=
  if 0 ≤ s.lastTime ∧ f.time - s.lastTime < MIN_TIME_DELTA then s
  else
    let pushed := s.frames ++ [f]
    let capped :=
      if MAX_FRAMES < pushed.length then
        everySecond (pushed.take (MAX_FRAMES / 2)) ++ pushed.drop (MAX_FRAMES / 2)
      else pushed
    { frames := capped, lastTime := f.time }

/-- The dedup guard of recordFrame, read positively: the call appends
rather than returning early. -/
def accepts (s : State) (f : RecordedFrame) : Prop :=
  ¬(0 ≤ s.lastTime ∧ f.time - s.lastTime < MIN_TIME_DELTA)

instance (s : State) (f : RecordedFrame) : Decidable (accepts s f) := by
  unfold accepts; infer_instance

/-- Proof-side reformulation of everySecond: first element kept, second
dropped, recurse. Proved equal to everySecond below. -/
def evens : List RecordedFrame → List RecordedFrame
  | [] => []
  | [a] => [a]
  | a :: _ :: rest => a :: evens rest

end Recorder

namespace RecorderHeap

/-- A tiny JavaScript heap of arrays of frames: contents per allocation id,
and the next fresh id. -/
structure Store where
  arrays : ℕ → List RecordedFrame
  nextId : ℕ

def Store.write (st : Store) (i : ℕ) (v : List RecordedFrame) : Store :=
  { st with arrays := fun j => if j = i then v else st.arrays j }

/-- useSimulationRecorder with the identity of framesRef.current made
explicit: framesId is the array object the ref currently points at. -/
structure HState where
  store : Store
  framesId : ℕ
  lastTime : ℚ

def initHeap : HState :=
  { store := { arrays := fun _ => [], nextId := 1 }, framesId := 0, lastTime := -1 }

/-- recordFrame over the array store: push mutates the array in place;
the downsampling branch builds a fresh array (spread syntax) and repoints
framesRef at it. -/
def recordFrameRef (s : HState) (f : RecordedFrame) : HState :=
  if 0 ≤ s.lastTime ∧ f.time - s.lastTime < Recorder.MIN_TIME_DELTA then s
  else
    let store1 := s.store.write s.framesId (s.store.arrays s.framesId ++ [f])
    let pushed := store1.arrays s.framesId
    if Recorder.MAX_FRAMES < pushed.length then
      let fresh := Recorder.everySecond (pushed.take (Recorder.MAX_FRAMES / 2))
        ++ pushed.drop (Recorder.MAX_FRAMES / 2)
      { store := { (store1.write store1.nextId fresh) with nextId := store1.nextId + 1 },
        framesId := store1.nextId, lastTime := f.time }
    else
      { s with store := store1, lastTime := f.time }

/-- getFrames (useSimulationRecorder): returns framesRef.current itself,
that is, the id of the live array, not a copy. -/
def getFramesRef (s : HState) : ℕ := s.framesId

end RecorderHeap

namespace Comparator

/-- RecordedRun (engines/analysis/types.ts): id from Date.now(), label,
parameter snapshot, copied frames. -/
structure RecordedRun where
  id : ℕ
  label : String
  params : List (String × ℚ)
  frames : List RecordedFrame
  deriving DecidableEq

/-- The ref cells saveRun touches: the live frames buffer, savedRunsRef and
runCounterRef. -/
structure CompareState where
  frames : List RecordedFrame
  savedRuns : List RecordedRun
  runCounter : ℕ
  deriving DecidableEq

/-- Run A, Run B, ... : String.fromCharCode(64 + counter). -/
def autoLabel (n : ℕ) : String := "Run " ++ String.mk [Char.ofNat (64 + n)]

/-- saveRun (useSimulationRecorder): increments the counter, labels, copies
the buffer and appends the run unconditionally. The argument now stands for
Date.now(). A missing or empty label falls back to the auto label, matching
the JavaScript truthiness test. -/
def saveRun (s : CompareState) (label : Option String) (params : List (String × ℚ))
    (now : ℕ) : CompareState :=
  let counter := s.runCounter + 1
  let lbl :=
    match label with
    | some l => if l = "" then autoLabel counter else l
    | none => autoLabel counter
  { s with
    runCounter := counter
    savedRuns := s.savedRuns ++
      [{ id := now, label := lbl, params := params, frames := s.frames }] }

/-- handleSave (ComparePanel): returns early when the buffer is empty,
otherwise calls saveRun with no label and a params snapshot. -/
def handleSave (s : CompareState) (params : List (String × ℚ)) (now : ℕ) : CompareState :=
  if s.frames = [] then s else saveRun s none params now

end Comparator

namespace Session

/-- SimState (engines/energy/types.ts). -/
inductive SimState where
  | idle
  | playing
  | paused
  | completed
  deriving DecidableEq

/-- The pieces of session state a parameter change touches: the lifecycle
state, whether an engine is mounted (hasEngine in Simulation.tsx), the
engine clock ref simTime, and the analysis recorder buffer. -/
structure SessionState where
  simState : SimState
  hasEngine : Bool
  clock : ℚ
  buffer : List RecordedFrame
  deriving DecidableEq

/-- The result of a parameter change: the new session state, and the time
renderFrame was called with during the swap, when it was called at all. -/
structure SwapOutcome where
  state : SessionState
  rendered : Option ℚ
  deriving DecidableEq

/-- Parameter hot-swap: the Simulation params-sync effect clears the
recorder when an engine is mounted and the state is not idle, then the
engine params-sync effect branches on the state: idle resets the clock and
renders at 0, playing resets the clock and restarts the tick loop, paused
renders at the current clock, completed does nothing. -/
def paramSwap (s : SessionState) : SwapOutcome :=
  let buffer := if s.hasEngine = true ∧ s.simState ≠ SimState.idle then [] else s.buffer
  match s.simState with
  | .idle => { state := { s with buffer := buffer, clock := 0 }, rendered := some 0 }
  | .playing => { state := { s with buffer := buffer, clock := 0 }, rendered := none }
  | .paused => { state := { s with buffer := buffer }, rendered := some s.clock }
  | .completed => { state := { s with buffer := buffer }, rendered := none }

end Session

namespace VerticalMotion

/-- VerticalMotionConfig with its documented defaults. The debug flag only
controls console logging and is omitted. -/
structure Config where
  initialVelocity : ℚ := 0
  initialHeight : ℚ := 0
  gravity : ℚ := 981/100
  deriving DecidableEq

/-- DT_CAP = 0.05. -/
def DT_CAP : ℚ := 1/20

/-- The private fields of a VerticalMotion instance: immutable
configuration plus mutable simulation state. The precomputed analytic
values are functions of the configuration and are modelled as the
standalone helpers below. -/
structure State where
  initialVelocity : ℚ
  initialHeight : ℚ
  gravity : ℚ
  time : ℚ
  position : ℚ
  velocity : ℚ
  maxHeight : ℚ
  isAtPeak : Bool
  isGrounded : Bool
  hasLaunched : Bool
  deriving DecidableEq

/-- The two validation failures the constructor can throw, each carrying
the offending value as the message template does. -/
inductive ConfigError where
  | negativeGravity (g : ℚ)
  | negativeInitialHeight (h : ℚ)
  deriving DecidableEq

/-- The VerticalMotion constructor: validates gravity and initialHeight,
then initialises the simulation state. -/
def create (c : Config) : Except ConfigError State :=
  if c.gravity < 0 then .error (.negativeGravity c.gravity)
  else if c.initialHeight < 0 then .error (.negativeInitialHeight c.initialHeight)
  else .ok
    { initialVelocity := c.initialVelocity
      initialHeight := c.initialHeight
      gravity := c.gravity
      time := 0
      position := c.initialHeight
      velocity := c.initialVelocity
      maxHeight := c.initialHeight
      isAtPeak := false
      isGrounded := false
      hasLaunched := false }

/-- update(deltaTime): no-op when grounded; clamp dt to [0, DT_CAP); no-op
when the clamped dt is 0; otherwise semi-implicit Euler (velocity first,
then position with the updated velocity), advance time, detect the peak
crossing, track max height, and clamp to the ground when the new position
is not positive. The source guards the ground check with hasLaunched, which
was set to true earlier in the same call, so the conjunct is always true
there. -/
def State.update (s : State) (deltaTime : ℚ) : State :=
  if s.isGrounded then s
  else
    let dt := min (max deltaTime 0) DT_CAP
    if dt = 0 then s
    else
      let prevVelocity := s.velocity
      let velocity := s.velocity + (-s.gravity) * dt
      let position := s.position + velocity * dt
      let time := s.time + dt
      let atPeak := decide (prevVelocity > 0 ∧ velocity ≤ 0)
      let maxHeight := if position > s.maxHeight then position else s.maxHeight
      if position ≤ 0 then
        { s with hasLaunched := true, time := time, position := 0, velocity := 0,
                 isAtPeak := atPeak, maxHeight := maxHeight, isGrounded := true }
      else
        { s with hasLaunched := true, time := time, position := position,
                 velocity := velocity, isAtPeak := atPeak, maxHeight := maxHeight }

/-- A whole run: fold update over a sequence of frame deltas. -/
def runUpdates (s : State) (dts : List ℚ) : State := dts.foldl State.update s

/-- Mechanical energy of a reported state at unit mass, the observable the
spec tracks: half the squared velocity plus gravity times height. -/
def mechEnergy (s : State) : ℚ := 1/2 * s.velocity ^ 2 + s.gravity * s.position

/-- computeFlightTime (VerticalMotion.ts): Infinity when g is not positive,
0 when the discriminant is negative, else the positive quadratic root
(v0 + sqrt(v0 * v0 + 2 * g * h0)) / g. -/
noncomputable def computeFlightTime (v0 h0 g : ℝ) : WithTop ℝ :=
  if g ≤ 0 then ⊤
  else if v0 * v0 + 2 * g * h0 < 0 then ((0 : ℝ) : WithTop ℝ)
  else (((v0 + Real.sqrt (v0 * v0 + 2 * g * h0)) / g : ℝ) : WithTop ℝ)

end VerticalMotion

namespace EnergyBarEngine

/-- computeHeight (EnergyBar engine): v0 * t - 0.5 * g * t * t, the closed
form with initial height 0. -/
def computeHeight (v0 g t : ℚ) : ℚ := v0 * t - 1/2 * g * t * t

/-- computeVelocity: v0 - g * t. -/
def computeVelocity (v0 g t : ℚ) : ℚ := v0 - g * t

/-- computeMaxHeight: v0 * v0 / (2 * g). -/
def computeMaxHeight (v0 g : ℚ) : ℚ := v0 * v0 / (2 * g)

/-- computeFlightTime (EnergyBar engine): (2 * v0) / g. -/
def computeFlightTime (v0 g : ℚ) : ℚ := 2 * v0 / g

/-- FrameData: the payload renderFrame hands to onFrame. -/
structure FrameData where
  time : ℚ
  height : ℚ
  velocity : ℚ
  maxHeight : ℚ
  deriving DecidableEq

/-- renderFrame(t): the reported height is clamped with Math.max(0, ...),
the velocity is the raw closed form. -/
def renderFrameData (v0 g t : ℚ) : FrameData :=
  { time := t
    height := max 0 (computeHeight v0 g t)
    velocity := computeVelocity v0 g t
    maxHeight := computeMaxHeight v0 g }

/-- Mechanical energy of a reported frame at unit mass. -/
def frameEnergy (g : ℚ) (f : FrameData) : ℚ := 1/2 * f.velocity ^ 2 + g * f.height

end EnergyBarEngine

namespace Scrubber

/-- One step of the closest-frame scan in AdvancedGraph: replace the
candidate only when the new frame is strictly closer to the requested
time. -/
def closerStep (t : ℚ) (c x : RecordedFrame) : RecordedFrame :=
  if |x.time - t| < |c.time - t| then x else c

/-- The closest-frame search: start from frames[0] and scan left to
right. -/
def closestFrame (frames : List RecordedFrame) (t : ℚ) : Option RecordedFrame :=
  match frames with
  | [] => none
  | f :: rest => some (rest.foldl (closerStep t) f)

end Scrubber

deriving instance DecidableEq for Except

/-- The state a fresh VerticalMotion holds for v0 = 0, h0 = 1, g = 10. -/
def stateH1G10 : VerticalMotion.State :=
  { initialVelocity := 0, initialHeight := 1, gravity := 10, time := 0, position := 1,
    velocity := 0, maxHeight := 1, isAtPeak := false, isGrounded := false, hasLaunched := false }

/-- The state a fresh VerticalMotion holds for v0 = 0, h0 = 0, g = 10. -/
def stateH0G10 : VerticalMotion.State :=
  { initialVelocity := 0, initialHeight := 0, gravity := 10, time := 0, position := 0,
    velocity := 0, maxHeight := 0, isAtPeak := false, isGrounded := false, hasLaunched := false }

/-- The state a fresh VerticalMotion holds for v0 = 0, h0 = 0, g = 1. -/
def stateH0G1 : VerticalMotion.State :=
  { initialVelocity := 0, initialHeight := 0, gravity := 1, time := 0, position := 0,
    velocity := 0, maxHeight := 0, isAtPeak := false, isGrounded := false, hasLaunched := false }

/-! ## Supporting lemmas: the recorder downsampler -/

namespace Recorder

lemma evens_cons (a : RecordedFrame) (l : List RecordedFrame) :
    evens (a :: l) = a :: evens l.tail := by
  cases l <;> simp [evens]

lemma enumFrom_filter_even (l : List RecordedFrame) : ∀ n : ℕ,
    (((List.enumFrom n l).filter fun p => p.1 % 2 == 0).map Prod.snd)
      = if n % 2 = 0 then evens l else evens l.tail := by
  induction l with
  | nil => intro n; cases Nat.decEq (n % 2) 0 <;> simp [evens]
  | cons a rest ih =>
    intro n
    by_cases hn : n % 2 = 0
    · have hn1 : (n + 1) % 2 ≠ 0 := by omega
      simp [List.enumFrom, hn, hn1, ih (n + 1), evens_cons]
    · have hn1 : (n + 1) % 2 = 0 := by omega
      simp [List.enumFrom, hn, hn1, ih (n + 1)]

lemma everySecond_eq_evens (l : List RecordedFrame) : everySecond l = evens l := by
  have h := enumFrom_filter_even l 0
  simpa [everySecond, List.enum] using h

lemma evens_length : ∀ l : List RecordedFrame, (evens l).length = (l.length + 1) / 2
  | [] => by simp [evens]
  | [a] => by simp [evens]
  | a :: b :: rest => by
      simp only [evens, List.length_cons, evens_length rest]
      omega

lemma recordFrame_of_accepts (s : State) (f : RecordedFrame) (h : accepts s f) :
    recordFrame s f =
      { frames :=
          if MAX_FRAMES < (s.frames ++ [f]).length then
            everySecond ((s.frames ++ [f]).take (MAX_FRAMES / 2))
              ++ (s.frames ++ [f]).drop (MAX_FRAMES / 2)
          else s.frames ++ [f],
        lastTime := f.time } := by
  unfold accepts at h
  unfold recordFrame
  rw [if_neg h]

lemma recordFrame_of_rejected (s : State) (f : RecordedFrame) (h : ¬accepts s f) :
    recordFrame s f = s := by
  unfold accepts at h
  rw [not_not] at h
  unfold recordFrame
  rw [if_pos h]

lemma recordFrame_length_le (s : State) (f : RecordedFrame)
    (h : s.frames.length ≤ MAX_FRAMES) :
    (recordFrame s f).frames.length ≤ MAX_FRAMES := by
  by_cases ha : accepts s f
  · rw [recordFrame_of_accepts s f ha]
    dsimp only
    split_ifs with hlen
    · rw [everySecond_eq_evens]
      simp only [List.length_append, List.length_take, List.length_drop, evens_length,
        List.length_singleton] at *
      unfold MAX_FRAMES at *
      omega
    · simp only [List.length_append, List.length_singleton] at *
      omega
  · rw [recordFrame_of_rejected s f ha]
    exact h

lemma foldl_recordFrame_length (inputs : List RecordedFrame) :
    ∀ s : State, s.frames.length ≤ MAX_FRAMES →
      (inputs.foldl recordFrame s).frames.length ≤ MAX_FRAMES := by
  induction inputs with
  | nil => intro s hs; simpa using hs
  | cons f rest ih =>
    intro s hs
    exact ih (recordFrame s f) (recordFrame_length_le s f hs)

lemma recordFrame_getLast (s : State) (f : RecordedFrame) (h : accepts s f) :
    (recordFrame s f).frames.getLast? = some f := by
  rw [recordFrame_of_accepts s f h]
  dsimp only
  split_ifs with hlen
  · have hhalf : MAX_FRAMES / 2 ≤ s.frames.length := by
      simp only [List.length_append, List.length_singleton] at hlen
      unfold MAX_FRAMES at *
      omega
    rw [List.drop_append_of_le_length hhalf, ← List.append_assoc]
    exact List.getLast?_concat _
  · exact List.getLast?_concat _

end Recorder

/-! ## Supporting lemmas: the vertical-motion integrator -/

namespace VerticalMotion

lemma dtc_nonneg (dt : ℚ) : 0 ≤ min (max dt 0) DT_CAP :=
  le_min (le_max_right dt 0) (by norm_num [DT_CAP])

lemma dtc_le_cap (dt : ℚ) : min (max dt 0) DT_CAP ≤ DT_CAP := min_le_right _ _

lemma dtc_of_le (dt : ℚ) (h1 : 0 ≤ dt) (h2 : dt ≤ DT_CAP) : min (max dt 0) DT_CAP = dt := by
  rw [max_eq_left h1, min_eq_left h2]

lemma update_of_grounded (s : State) (dt : ℚ) (h : s.isGrounded = true) : s.update dt = s := by
  simp [State.update, h]

lemma update_of_dtc_zero (s : State) (dt : ℚ) (h : min (max dt 0) DT_CAP = 0) :
    s.update dt = s := by
  by_cases hg : s.isGrounded = true
  · simp [State.update, hg]
  · simp [State.update, hg, h]

lemma update_effective_pos (s : State) (dt : ℚ) (hgr : s.isGrounded = false)
    (hdt : min (max dt 0) DT_CAP ≠ 0)
    (hp : ¬ s.position + (s.velocity + (-s.gravity) * min (max dt 0) DT_CAP)
        * min (max dt 0) DT_CAP ≤ 0) :
    s.update dt =
      { s with hasLaunched := true,
               time := s.time + min (max dt 0) DT_CAP,
               position := s.position + (s.velocity + (-s.gravity) * min (max dt 0) DT_CAP)
                 * min (max dt 0) DT_CAP,
               velocity := s.velocity + (-s.gravity) * min (max dt 0) DT_CAP,
               isAtPeak := decide (s.velocity > 0
                 ∧ s.velocity + (-s.gravity) * min (max dt 0) DT_CAP ≤ 0),
               maxHeight := if s.position + (s.velocity + (-s.gravity) * min (max dt 0) DT_CAP)
                   * min (max dt 0) DT_CAP > s.maxHeight then
                   s.position + (s.velocity + (-s.gravity) * min (max dt 0) DT_CAP)
                     * min (max dt 0) DT_CAP
                 else s.maxHeight } := by
  simp only [State.update, hgr, Bool.false_eq_true, if_false, if_neg hdt, if_neg hp]

lemma update_effective_clamp (s : State) (dt : ℚ) (hgr : s.isGrounded = false)
    (hdt : min (max dt 0) DT_CAP ≠ 0)
    (hp : s.position + (s.velocity + (-s.gravity) * min (max dt 0) DT_CAP)
        * min (max dt 0) DT_CAP ≤ 0) :
    s.update dt =
      { s with hasLaunched := true,
               time := s.time + min (max dt 0) DT_CAP,
               position := 0,
               velocity := 0,
               isAtPeak := decide (s.velocity > 0
                 ∧ s.velocity + (-s.gravity) * min (max dt 0) DT_CAP ≤ 0),
               maxHeight := if s.position + (s.velocity + (-s.gravity) * min (max dt 0) DT_CAP)
                   * min (max dt 0) DT_CAP > s.maxHeight then
                   s.position + (s.velocity + (-s.gravity) * min (max dt 0) DT_CAP)
                     * min (max dt 0) DT_CAP
                 else s.maxHeight,
               isGrounded := true } := by
  simp only [State.update, hgr, Bool.false_eq_true, if_false, if_neg hdt, if_pos hp]

/-- The run invariant of a VerticalMotion built from v0, h0, g: the reported
position never drops below the ground, a grounded state is fully clamped,
and a state still in flight has the exact closed-form velocity and a
position at or below the closed-form parabola (the right-endpoint Riemann
sum of a decreasing integrand under-approximates the integral). -/
def Inv (v0 h0 g : ℚ) (s : State) : Prop :=
  s.gravity = g ∧ 0 ≤ s.position ∧ 0 ≤ s.time ∧
  (s.isGrounded = true → s.position = 0 ∧ s.velocity = 0) ∧
  (s.isGrounded = false →
    s.velocity = v0 - g * s.time ∧
    s.position ≤ h0 + v0 * s.time - g / 2 * s.time ^ 2 ∧
    (s.time = 0 → s.velocity = v0) ∧
    (0 < s.time → 0 < s.position))

lemma Inv_create (c : Config) (s : State) (h : create c = .ok s) :
    Inv c.initialVelocity c.initialHeight c.gravity s
      ∧ 0 ≤ c.gravity ∧ 0 ≤ c.initialHeight := by
  unfold create at h
  by_cases hg : c.gravity < 0
  · rw [if_pos hg] at h; exact absurd h (by simp)
  · rw [if_neg hg] at h
    by_cases hh : c.initialHeight < 0
    · rw [if_pos hh] at h; exact absurd h (by simp)
    · rw [if_neg hh] at h
      rw [not_lt] at hg hh
      refine ⟨?_, hg, hh⟩
      obtain rfl : _ = s := by simpa using h
      refine ⟨rfl, hh, le_refl 0, by simp, ?_⟩
      intro _
      refine ⟨by ring, by nlinarith, fun _ => rfl, ?_⟩
      intro habs
      exact absurd habs (by norm_num)

lemma Inv_update (v0 h0 g : ℚ) (hg : 0 ≤ g) (s : State) (hs : Inv v0 h0 g s) (dt : ℚ) :
    Inv v0 h0 g (s.update dt) := by
  obtain ⟨hgrav, hpos, htime, hgnd, hfly⟩ := hs
  subst hgrav
  by_cases hgr : s.isGrounded = true
  · rw [update_of_grounded s dt hgr]
    exact ⟨rfl, hpos, htime, hgnd, hfly⟩
  · rw [Bool.not_eq_true] at hgr
    by_cases hz : min (max dt 0) DT_CAP = 0
    · rw [update_of_dtc_zero s dt hz]
      exact ⟨rfl, hpos, htime, hgnd, hfly⟩
    · obtain ⟨hvel, hple, hv0, hposgt⟩ := hfly hgr
      have hdtc0 : 0 < min (max dt 0) DT_CAP := lt_of_le_of_ne (dtc_nonneg dt) (Ne.symm hz)
      by_cases hp : s.position + (s.velocity + (-s.gravity) * min (max dt 0) DT_CAP)
          * min (max dt 0) DT_CAP ≤ 0
      · rw [update_effective_clamp s dt hgr hz hp]
        refine ⟨rfl, le_refl 0, ?_, ?_, ?_⟩
        · dsimp only
          linarith [hdtc0]
        · intro _
          exact ⟨rfl, rfl⟩
        · intro habs
          simp at habs
      · rw [update_effective_pos s dt hgr hz hp]
        rw [not_le] at hp
        refine ⟨rfl, le_of_lt hp, ?_, ?_, ?_⟩
        · dsimp only
          linarith [hdtc0]
        · intro habs
          simp [hgr] at habs
        · intro _
          dsimp only
          have key : 0 ≤ s.gravity * (min (max dt 0) DT_CAP) ^ 2 :=
            mul_nonneg hg (sq_nonneg _)
          refine ⟨by rw [hvel]; ring, ?_, ?_, fun _ => hp⟩
          · nlinarith [hple, key, hvel]
          · intro habs
            exfalso
            linarith [htime, hdtc0]

lemma Inv_runUpdates (v0 h0 g : ℚ) (hg : 0 ≤ g) (s : State) (hs : Inv v0 h0 g s)
    (dts : List ℚ) : Inv v0 h0 g (runUpdates s dts) := by
  induction dts generalizing s with
  | nil => exact hs
  | cons d rest ih => exact ih (s.update d) (Inv_update v0 h0 g hg s hs d)

lemma computeFlightTime_of_pos (v0 h0 g : ℝ) (hg : 0 < g) (hdisc : 0 ≤ v0 * v0 + 2 * g * h0) :
    computeFlightTime v0 h0 g
      = (((v0 + Real.sqrt (v0 * v0 + 2 * g * h0)) / g : ℝ) : WithTop ℝ) := by
  unfold computeFlightTime
  rw [if_neg (not_le.mpr hg), if_neg (not_lt.mpr hdisc)]

/-- Once the run clock is at or past the analytic flight time, a run of the
Euler integrator from a valid configuration with non-negative launch
velocity reports the fully clamped ground state. -/
lemma grounded_after_flight (c : Config) (s0 : State) (hmk : create c = .ok s0)
    (hv0 : 0 ≤ c.initialVelocity) (hg : 0 < c.gravity) (dts : List ℚ)
    (hT : computeFlightTime (c.initialVelocity : ℝ) (c.initialHeight : ℝ) (c.gravity : ℝ)
        ≤ (((runUpdates s0 dts).time : ℝ) : WithTop ℝ)) :
    (runUpdates s0 dts).position = 0 ∧ (runUpdates s0 dts).velocity = 0 := by
  obtain ⟨hinv0, hgq, hhq⟩ := Inv_create c s0 hmk
  have hinv := Inv_runUpdates _ _ _ hg.le s0 hinv0 dts
  set s := runUpdates s0 dts with hs
  obtain ⟨hgrav, hpos, htime, hgnd, hfly⟩ := hinv
  have hgR : (0 : ℝ) < (c.gravity : ℝ) := by exact_mod_cast hg
  have hdiscQ : (0 : ℚ) ≤ c.initialVelocity * c.initialVelocity
      + 2 * c.gravity * c.initialHeight := by nlinarith [mul_self_nonneg c.initialVelocity]
  have hdiscR : (0 : ℝ) ≤ (c.initialVelocity : ℝ) * (c.initialVelocity : ℝ)
      + 2 * (c.gravity : ℝ) * (c.initialHeight : ℝ) := by exact_mod_cast hdiscQ
  rw [computeFlightTime_of_pos _ _ _ hgR hdiscR, WithTop.coe_le_coe, div_le_iff₀ hgR] at hT
  have hsq : Real.sqrt ((c.initialVelocity : ℝ) * (c.initialVelocity : ℝ)
      + 2 * (c.gravity : ℝ) * (c.initialHeight : ℝ))
      ≤ (c.gravity : ℝ) * (s.time : ℝ) - (c.initialVelocity : ℝ) := by linarith [hT]
  have hge0R : (0 : ℝ) ≤ (c.gravity : ℝ) * (s.time : ℝ) - (c.initialVelocity : ℝ) :=
    le_trans (Real.sqrt_nonneg _) hsq
  have hsqR : (c.initialVelocity : ℝ) * (c.initialVelocity : ℝ)
      + 2 * (c.gravity : ℝ) * (c.initialHeight : ℝ)
      ≤ ((c.gravity : ℝ) * (s.time : ℝ) - (c.initialVelocity : ℝ)) ^ 2 := by
    nlinarith [Real.sq_sqrt hdiscR, Real.sqrt_nonneg ((c.initialVelocity : ℝ)
      * (c.initialVelocity : ℝ) + 2 * (c.gravity : ℝ) * (c.initialHeight : ℝ)), hsq]
  have hQ1 : (0 : ℚ) ≤ c.gravity * s.time - c.initialVelocity := by exact_mod_cast hge0R
  have hQ2 : c.initialVelocity * c.initialVelocity + 2 * c.gravity * c.initialHeight
      ≤ (c.gravity * s.time - c.initialVelocity) ^ 2 := by exact_mod_cast hsqR
  have hana : c.initialHeight + c.initialVelocity * s.time
      - c.gravity / 2 * s.time ^ 2 ≤ 0 := by nlinarith [hQ2, hg]
  by_cases hgr : s.isGrounded = true
  · exact hgnd hgr
  · rw [Bool.not_eq_true] at hgr
    obtain ⟨hvel, hple, hv0t, hposgt⟩ := hfly hgr
    have hpos0 : s.position = 0 := le_antisymm (hple.trans hana) hpos
    refine ⟨hpos0, ?_⟩
    rcases lt_or_eq_of_le htime with ht0 | ht0
    · exact absurd (hposgt ht0) (by rw [hpos0]; norm_num)
    · have htz : s.time = 0 := ht0.symm
      have hv00 : c.initialVelocity = 0 := le_antisymm (by nlinarith [hQ1, htz]) hv0
      rw [hvel, htz, hv00]
      ring

end VerticalMotion

/-! ## Supporting lemmas: the closest-frame scan -/

namespace Scrubber

lemma foldl_closer_mem (t : ℚ) : ∀ (l : List RecordedFrame) (acc : RecordedFrame),
    l.foldl (closerStep t) acc ∈ acc :: l := by
  intro l
  induction l with
  | nil => intro acc; simp
  | cons b bs ih =>
    intro acc
    rw [List.foldl_cons]
    have h := ih (closerStep t acc b)
    have hcb : closerStep t acc b = b ∨ closerStep t acc b = acc := by
      unfold closerStep; split_ifs <;> simp
    rcases List.mem_cons.mp h with h1 | h1
    · rw [h1]
      rcases hcb with h2 | h2 <;> rw [h2] <;> simp
    · exact List.mem_cons_of_mem _ (List.mem_cons_of_mem _ h1)

lemma foldl_closer_improve (t : ℚ) : ∀ (l : List RecordedFrame) (acc : RecordedFrame),
    l.foldl (closerStep t) acc = acc
      ∨ |(l.foldl (closerStep t) acc).time - t| < |acc.time - t| := by
  intro l
  induction l with
  | nil => intro acc; left; rfl
  | cons b bs ih =>
    intro acc
    rw [List.foldl_cons]
    by_cases hb : |b.time - t| < |acc.time - t|
    · have hcb : closerStep t acc b = b := by unfold closerStep; rw [if_pos hb]
      rw [hcb]
      rcases ih b with h | h
      · right; rw [h]; exact hb
      · right; exact lt_trans h hb
    · have hcb : closerStep t acc b = acc := by unfold closerStep; rw [if_neg hb]
      rw [hcb]
      exact ih acc

lemma foldl_closer_min (t : ℚ) : ∀ (l : List RecordedFrame) (acc : RecordedFrame),
    ∀ x ∈ acc :: l, |(l.foldl (closerStep t) acc).time - t| ≤ |x.time - t| := by
  intro l
  induction l with
  | nil =>
    intro acc x hx
    simp only [List.mem_singleton] at hx
    rw [hx, List.foldl_nil]
  | cons b bs ih =>
    intro acc x hx
    rw [List.foldl_cons]
    by_cases hb : |b.time - t| < |acc.time - t|
    · have hcb : closerStep t acc b = b := by unfold closerStep; rw [if_pos hb]
      rw [hcb]
      rcases List.mem_cons.mp hx with h1 | h1
      · rw [h1]
        exact le_of_lt (lt_of_le_of_lt (ih b b (List.mem_cons_self b bs)) hb)
      · exact ih b x h1
    · have hcb : closerStep t acc b = acc := by unfold closerStep; rw [if_neg hb]
      rw [hcb]
      rcases List.mem_cons.mp hx with h1 | h1
      · rw [h1]
        exact ih acc acc (List.mem_cons_self acc bs)
      · rcases List.mem_cons.mp h1 with h2 | h2
        · rw [h2]
          exact le_trans (ih acc acc (List.mem_cons_self acc bs)) (not_lt.mp hb)
        · exact ih acc x (List.mem_cons_of_mem _ h2)

lemma foldl_closer_tie (t : ℚ) : ∀ (l : List RecordedFrame) (acc : RecordedFrame),
    (acc :: l).Pairwise (fun a b => a.time ≤ b.time) →
    ∀ x ∈ acc :: l, |x.time - t| = |(l.foldl (closerStep t) acc).time - t| →
      (l.foldl (closerStep t) acc).time ≤ x.time := by
  intro l
  induction l with
  | nil =>
    intro acc _ x hx _
    simp only [List.mem_singleton] at hx
    rw [hx, List.foldl_nil]
  | cons b bs ih =>
    intro acc hp x hx heq
    rw [List.foldl_cons] at heq ⊢
    by_cases hb : |b.time - t| < |acc.time - t|
    · have hcb : closerStep t acc b = b := by unfold closerStep; rw [if_pos hb]
      rw [hcb] at heq ⊢
      rcases List.mem_cons.mp hx with h1 | h1
      · exfalso
        have hres := foldl_closer_min t bs b b (List.mem_cons_self b bs)
        rw [h1] at heq
        have hlt := lt_of_le_of_lt hres hb
        rw [← heq] at hlt
        exact lt_irrefl _ hlt
      · exact ih b hp.of_cons x h1 heq
    · have hcb : closerStep t acc b = acc := by unfold closerStep; rw [if_neg hb]
      rw [hcb] at heq ⊢
      have hpacb : (acc :: bs).Pairwise (fun a b => a.time ≤ b.time) := by
        obtain ⟨hhead, htail⟩ := List.pairwise_cons.mp hp
        exact List.pairwise_cons.mpr
          ⟨fun y hy => hhead y (List.mem_cons_of_mem _ hy), htail.of_cons⟩
      rcases List.mem_cons.mp hx with h1 | h1
      · exact ih acc hpacb x (by rw [h1]; exact List.mem_cons_self acc bs) heq
      · rcases List.mem_cons.mp h1 with h2 | h2
        · rcases foldl_closer_improve t bs acc with hres | hres
          · rw [hres, h2]
            exact (List.pairwise_cons.mp hp).1 b (List.mem_cons_self b bs)
          · exfalso
            rw [h2] at heq
            have h3 := not_lt.mp hb
            rw [heq] at h3
            exact absurd (lt_of_le_of_lt h3 hres) (lt_irrefl _)
        · exact ih acc hpacb x (List.mem_cons_of_mem _ h2) heq

end Scrubber

/-! ## The claims -/

/-- C1 counterexample: from the valid configuration v0 = 0, h0 = 1, g = 10
of the VerticalMotion class, one tick of 1/20 s drops the mechanical energy
from 10 to 79/8: the semi-implicit Euler integrator does not conserve
energy exactly. -/
theorem euler_energy_drift_cex :
    VerticalMotion.create { initialVelocity := 0, initialHeight := 1, gravity := 10 }
        = .ok stateH1G10
    ∧ VerticalMotion.mechEnergy stateH1G10 = 10
    ∧ VerticalMotion.mechEnergy (stateH1G10.update (1/20)) = 79/8
    ∧ VerticalMotion.mechEnergy (stateH1G10.update (1/20))
        ≠ VerticalMotion.mechEnergy stateH1G10 := by
  have hdtc : min (max (1/20 : ℚ) 0) VerticalMotion.DT_CAP = 1/20 :=
    VerticalMotion.dtc_of_le (1/20) (by norm_num) (by norm_num [VerticalMotion.DT_CAP])
  have h1 : VerticalMotion.mechEnergy stateH1G10 = 10 := by
    norm_num [VerticalMotion.mechEnergy, stateH1G10]
  have h2 : VerticalMotion.mechEnergy (stateH1G10.update (1/20)) = 79/8 := by
    rw [VerticalMotion.update_effective_pos stateH1G10 (1/20) rfl
      (by rw [hdtc]; norm_num) (by rw [hdtc]; norm_num [stateH1G10])]
    unfold VerticalMotion.mechEnergy
    dsimp only
    rw [hdtc]
    norm_num [stateH1G10]
  refine ⟨?_, h1, h2, by rw [h1, h2]; norm_num⟩
  unfold VerticalMotion.create
  rw [if_neg (by norm_num), if_neg (by norm_num)]
  rfl

/-- C1 (amended): exact conservation holds for the closed-form EnergyBar
engine: every frame it reports at a tick time inside the flight window
carries mechanical energy exactly half the squared launch velocity. The
Euler-integrated VerticalMotion class instead loses exactly
(1/2) g^2 dt^2 on each effective non-clamping step, so its energy drifts
downward instead of being constant. -/
theorem energy_conservation_closed_form :
    (∀ v0 g t : ℚ, 0 ≤ t → g * t ≤ 2 * v0 →
      EnergyBarEngine.frameEnergy g (EnergyBarEngine.renderFrameData v0 g t) = 1/2 * v0 ^ 2)
    ∧ (∀ (s : VerticalMotion.State) (dt : ℚ), s.isGrounded = false →
        0 < s.position + (s.velocity + (-s.gravity) * min (max dt 0) VerticalMotion.DT_CAP)
          * min (max dt 0) VerticalMotion.DT_CAP →
        VerticalMotion.mechEnergy (s.update dt)
          = VerticalMotion.mechEnergy s
            - 1/2 * s.gravity ^ 2 * (min (max dt 0) VerticalMotion.DT_CAP) ^ 2) := by
  constructor
  · intro v0 g t ht h2
    have hh : 0 ≤ EnergyBarEngine.computeHeight v0 g t := by
      unfold EnergyBarEngine.computeHeight
      nlinarith
    unfold EnergyBarEngine.frameEnergy EnergyBarEngine.renderFrameData
    dsimp only
    rw [max_eq_right hh]
    unfold EnergyBarEngine.computeVelocity EnergyBarEngine.computeHeight
    ring
  · intro s dt hgr hp
    by_cases hz : min (max dt 0) VerticalMotion.DT_CAP = 0
    · rw [VerticalMotion.update_of_dtc_zero s dt hz, hz]
      ring
    · rw [VerticalMotion.update_effective_pos s dt hgr hz (not_le.mpr hp)]
      unfold VerticalMotion.mechEnergy
      dsimp only
      ring

/-- C1 witness: the closed-form engine at v0 = 1, g = 1, t = 1 reports
energy exactly 1/2. -/
theorem energy_conservation_witness :
    EnergyBarEngine.frameEnergy 1 (EnergyBarEngine.renderFrameData 1 1 1) = 1/2 * 1 ^ 2 :=
  energy_conservation_closed_form.1 1 1 1 (by norm_num) (by norm_num)

/-- C2 counterexample: a parameter change while Paused clears the recorder
buffer, because the params-sync guard fires for every non-idle state. -/
theorem paramSwap_paused_clears_cex :
    (Session.paramSwap
        { simState := .paused, hasEngine := true, clock := 2,
          buffer := [{ time := 0 }] }).state.buffer = []
    ∧ ([] : List RecordedFrame) ≠ [{ time := 0 }] := by
  decide

/-- C2 (amended): with an engine mounted, a hot-swap while Playing clears
the recorder and restarts the clock at 0; a swap while Paused ALSO clears
the recorder, while keeping the clock and re-rendering at the current clock
value; a swap while Idle leaves the buffer untouched, keeps the clock at 0
and re-renders at 0. -/
theorem paramSwap_semantics :
    ∀ s : Session.SessionState, s.hasEngine = true →
      (s.simState = .playing →
        (Session.paramSwap s).state.buffer = [] ∧ (Session.paramSwap s).state.clock = 0)
      ∧ (s.simState = .paused →
        (Session.paramSwap s).state.buffer = []
          ∧ (Session.paramSwap s).state.clock = s.clock
          ∧ (Session.paramSwap s).rendered = some s.clock)
      ∧ (s.simState = .idle →
        (Session.paramSwap s).state.buffer = s.buffer
          ∧ (Session.paramSwap s).state.clock = 0
          ∧ (Session.paramSwap s).rendered = some 0) := by
  rintro ⟨st, he, c, b⟩ h
  dsimp only at h
  subst h
  cases st <;> refine ⟨?_, ?_, ?_⟩ <;> intro hst <;>
    simp_all [Session.paramSwap]

/-- C2 witness: a concrete playing-state swap clears the buffer and resets
the clock. -/
theorem paramSwap_witness :
    (Session.paramSwap
        { simState := .playing, hasEngine := true, clock := 5, buffer := [{ time := 0 }] }
      ).state.buffer = []
    ∧ (Session.paramSwap
        { simState := .playing, hasEngine := true, clock := 5, buffer := [{ time := 0 }] }
      ).state.clock = 0 :=
  (paramSwap_semantics _ rfl).1 rfl

/-- C3 counterexample: the closed-form EnergyBar engine does not clamp the
reported velocity at the terminal tick: at v0 = 10, g = 10 the completing
tick renders at t = flightTime = 2 and reports velocity -10, not 0, even
though the height is clamped to 0. -/
theorem terminal_velocity_not_clamped_cex :
    EnergyBarEngine.computeFlightTime 10 10 = 2
    ∧ (EnergyBarEngine.renderFrameData 10 10 2).height = 0
    ∧ (EnergyBarEngine.renderFrameData 10 10 2).velocity = -10
    ∧ (-10 : ℚ) ≠ 0 := by
  refine ⟨?_, ?_, ?_, by norm_num⟩
  · norm_num [EnergyBarEngine.computeFlightTime]
  · norm_num [EnergyBarEngine.renderFrameData, EnergyBarEngine.computeHeight]
  · norm_num [EnergyBarEngine.renderFrameData, EnergyBarEngine.computeVelocity]

/-- C3 (amended): for the Euler VerticalMotion class, a run from any valid
configuration never reports a position below the ground; and when the
launch velocity is non-negative and gravity positive, any reported state
whose clock is at or past the analytic flight time has position exactly 0
and velocity exactly 0. (The closed-form engine clamps the reported height
but reports -v0, not 0, at its terminal tick.) -/
theorem ground_clamp_amended :
    (∀ (c : VerticalMotion.Config) (s0 : VerticalMotion.State),
        VerticalMotion.create c = .ok s0 →
        ∀ dts : List ℚ, 0 ≤ (VerticalMotion.runUpdates s0 dts).position)
    ∧ (∀ (c : VerticalMotion.Config) (s0 : VerticalMotion.State),
        VerticalMotion.create c = .ok s0 →
        0 ≤ c.initialVelocity → 0 < c.gravity →
        ∀ dts : List ℚ,
          VerticalMotion.computeFlightTime (c.initialVelocity : ℝ) (c.initialHeight : ℝ)
              (c.gravity : ℝ)
            ≤ (((VerticalMotion.runUpdates s0 dts).time : ℝ) : WithTop ℝ) →
          (VerticalMotion.runUpdates s0 dts).position = 0
            ∧ (VerticalMotion.runUpdates s0 dts).velocity = 0) := by
  constructor
  · intro c s0 hmk dts
    obtain ⟨hinv0, hgq, hhq⟩ := VerticalMotion.Inv_create c s0 hmk
    exact (VerticalMotion.Inv_runUpdates _ _ _ hgq s0 hinv0 dts).2.1
  · exact fun c s0 hmk hv0 hg dts hT =>
      VerticalMotion.grounded_after_flight c s0 hmk hv0 hg dts hT

/-- C3 witness: from v0 = 0, h0 = 0, g = 1 (flight time 0) one tick lands
at clock 1/20 past the flight time with the clamped state. -/
theorem ground_clamp_witness :
    (VerticalMotion.runUpdates stateH0G1 [1/20]).position = 0
    ∧ (VerticalMotion.runUpdates stateH0G1 [1/20]).velocity = 0 :=
  ground_clamp_amended.2 { initialVelocity := 0, initialHeight := 0, gravity := 1 }
    stateH0G1 (by unfold VerticalMotion.create; rw [if_neg (by norm_num), if_neg (by norm_num)]; rfl)
    (by norm_num) (by norm_num) [1/20]
    (by
      have hdtc : min (max (1/20 : ℚ) 0) VerticalMotion.DT_CAP = 1/20 :=
        VerticalMotion.dtc_of_le (1/20) (by norm_num) (by norm_num [VerticalMotion.DT_CAP])
      have htv : (VerticalMotion.runUpdates stateH0G1 [1/20]).time = 1/20 := by
        show (stateH0G1.update (1/20)).time = 1/20
        rw [VerticalMotion.update_effective_clamp stateH0G1 (1/20) rfl
          (by rw [hdtc]; norm_num) (by rw [hdtc]; norm_num [stateH0G1])]
        dsimp only
        rw [hdtc]
        norm_num [stateH0G1]
      rw [htv, VerticalMotion.computeFlightTime_of_pos _ _ _ (by norm_num) (by norm_num),
        WithTop.coe_le_coe]
      norm_num [Real.sqrt_zero])

/-- C4 counterexample: at v0 = -1, h0 = 0, g = 1, a configuration the
constructor accepts, the precomputed flight time is 0, not
2 v0 / g = -2. -/
theorem flight_time_negative_v0_cex :
    VerticalMotion.computeFlightTime (-1) 0 1 = ((0 : ℝ) : WithTop ℝ)
    ∧ ((2 * (-1) / 1 : ℝ) : WithTop ℝ) = ((-2 : ℝ) : WithTop ℝ)
    ∧ ((0 : ℝ) : WithTop ℝ) ≠ ((-2 : ℝ) : WithTop ℝ) := by
  refine ⟨?_, by norm_num, ?_⟩
  · rw [VerticalMotion.computeFlightTime_of_pos (-1) 0 1 (by norm_num) (by norm_num)]
    rw [show ((-1 : ℝ) * (-1) + 2 * 1 * 0 : ℝ) = 1 by norm_num, Real.sqrt_one]
    norm_num
  · simp only [ne_eq, WithTop.coe_eq_coe]
    norm_num

/-- C4 (amended): for g > 0, h0 >= 0 and v0 >= 0, the precomputed flight
time equals (v0 + sqrt(v0^2 + 2 g h0)) / g, reducing to sqrt(2 h0 / g)
when v0 = 0 and to 2 v0 / g when h0 = 0. (For v0 < 0 with h0 = 0 the code
returns 0, not 2 v0 / g.) -/
theorem flight_time_formula :
    ∀ v0 h0 g : ℝ, 0 < g → 0 ≤ h0 → 0 ≤ v0 →
      VerticalMotion.computeFlightTime v0 h0 g
        = (((v0 + Real.sqrt (v0 * v0 + 2 * g * h0)) / g : ℝ) : WithTop ℝ)
      ∧ (v0 = 0 → VerticalMotion.computeFlightTime v0 h0 g
          = ((Real.sqrt (2 * h0 / g) : ℝ) : WithTop ℝ))
      ∧ (h0 = 0 → VerticalMotion.computeFlightTime v0 h0 g
          = ((2 * v0 / g : ℝ) : WithTop ℝ)) := by
  intro v0 h0 g hg hh hv
  have hdisc : 0 ≤ v0 * v0 + 2 * g * h0 := by nlinarith
  refine ⟨VerticalMotion.computeFlightTime_of_pos v0 h0 g hg hdisc, ?_, ?_⟩
  · rintro rfl
    rw [VerticalMotion.computeFlightTime_of_pos 0 h0 g hg (by nlinarith)]
    have h1 : (2 * h0 / g : ℝ) = 2 * g * h0 / g ^ 2 := by
      field_simp
      ring
    have h2 : Real.sqrt (2 * h0 / g) = Real.sqrt (2 * g * h0) / g := by
      rw [h1, Real.sqrt_div (by nlinarith) (g ^ 2), Real.sqrt_sq hg.le]
    rw [h2]
    norm_num
  · rintro rfl
    rw [VerticalMotion.computeFlightTime_of_pos v0 0 g hg (by nlinarith)]
    rw [show v0 * v0 + 2 * g * 0 = v0 * v0 by ring, Real.sqrt_mul_self hv,
      show (v0 + v0) / g = 2 * v0 / g by ring]

/-- C4 witness: at v0 = 1, h0 = 0, g = 2 the formula instance holds
concretely. -/
theorem flight_time_witness :
    VerticalMotion.computeFlightTime 1 0 2
        = (((1 + Real.sqrt (1 * 1 + 2 * 2 * 0)) / 2 : ℝ) : WithTop ℝ)
      ∧ ((1 : ℝ) = 0 → VerticalMotion.computeFlightTime 1 0 2
          = ((Real.sqrt (2 * 0 / 2) : ℝ) : WithTop ℝ))
      ∧ ((0 : ℝ) = 0 → VerticalMotion.computeFlightTime 1 0 2
          = ((2 * 1 / 2 : ℝ) : WithTop ℝ)) :=
  flight_time_formula 1 0 2 (by norm_num) le_rfl (by norm_num)

/-- C5: the recorder cap: a run of recordFrame calls from the initial state
never leaves more than MAX_FRAMES frames buffered; every accepted call
leaves its frame as the last element of the buffer (so downsampling never
drops the most recent frame, however often it fires); and when an accepted
push exceeds the cap, the new buffer is exactly every 2nd frame of the
oldest MAX_FRAMES / 2 entries followed by the entire recent remainder,
untouched. -/
theorem recorder_cap_and_downsample :
    (∀ inputs : List RecordedFrame,
        (inputs.foldl Recorder.recordFrame Recorder.initState).frames.length
          ≤ Recorder.MAX_FRAMES)
    ∧ (∀ (s : Recorder.State) (f : RecordedFrame), Recorder.accepts s f →
        (Recorder.recordFrame s f).frames.getLast? = some f)
    ∧ (∀ (s : Recorder.State) (f : RecordedFrame), Recorder.accepts s f →
        Recorder.MAX_FRAMES < (s.frames ++ [f]).length →
        (Recorder.recordFrame s f).frames
          = Recorder.everySecond ((s.frames ++ [f]).take (Recorder.MAX_FRAMES / 2))
            ++ (s.frames ++ [f]).drop (Recorder.MAX_FRAMES / 2)) := by
  refine ⟨?_, Recorder.recordFrame_getLast, ?_⟩
  · intro inputs
    exact Recorder.foldl_recordFrame_length inputs Recorder.initState
      (by simp [Recorder.initState])
  · intro s f ha hlen
    rw [Recorder.recordFrame_of_accepts s f ha]
    dsimp only
    rw [if_pos hlen]

/-- C5 witness: the first recorded frame is accepted and becomes the last
element of the buffer. -/
theorem recorder_cap_witness :
    (Recorder.recordFrame Recorder.initState { time := 0 }).frames.getLast?
      = some { time := 0 } :=
  recorder_cap_and_downsample.2.1 Recorder.initState { time := 0 }
    (by norm_num [Recorder.accepts, Recorder.initState])

/-- C6 exhibit: getFrames returns the live array, not a snapshot: after one
recorded frame, getFrames yields array id 0 holding one frame, and a later
sub-cap recordFrame pushes onto that same array, so the previously returned
result now holds two frames. -/
theorem getFrames_returns_live_buffer :
    RecorderHeap.getFramesRef (RecorderHeap.recordFrameRef RecorderHeap.initHeap { time := 0 }) = 0
    ∧ (RecorderHeap.recordFrameRef RecorderHeap.initHeap { time := 0 }).store.arrays 0
        = [{ time := 0 }]
    ∧ (RecorderHeap.recordFrameRef
          (RecorderHeap.recordFrameRef RecorderHeap.initHeap { time := 0 })
          { time := 1 }).store.arrays 0
        = [{ time := 0 }, { time := 1 }] := by
  refine ⟨rfl, ?_, ?_⟩ <;>
    norm_num [RecorderHeap.recordFrameRef, RecorderHeap.initHeap, RecorderHeap.Store.write,
      Recorder.MIN_TIME_DELTA, Recorder.MAX_FRAMES]

/-- C7 counterexample: gravity 0 is a zero denominator of the flight-time
constant, yet the constructor accepts the configuration; the degeneracy
surfaces as an infinite precomputed flight time instead of a construction
error. -/
theorem zero_gravity_constructs_cex :
    VerticalMotion.create { initialVelocity := 0, initialHeight := 1, gravity := 0 }
      = .ok { initialVelocity := 0, initialHeight := 1, gravity := 0, time := 0,
              position := 1, velocity := 0, maxHeight := 1, isAtPeak := false,
              isGrounded := false, hasLaunched := false }
    ∧ VerticalMotion.computeFlightTime 0 1 0 = ⊤ := by
  constructor
  · decide
  · unfold VerticalMotion.computeFlightTime
    rw [if_pos le_rfl]

/-- C7 (amended): the constructor rejects exactly negative gravity and
negative initial height, with an error naming the offending parameter;
a zero denominator is NOT rejected: gravity 0 constructs successfully and
its flight-time constant is Infinity. -/
theorem construction_validation_amended :
    ∀ c : VerticalMotion.Config,
      ((∃ s, VerticalMotion.create c = .ok s) ↔ 0 ≤ c.gravity ∧ 0 ≤ c.initialHeight)
      ∧ (VerticalMotion.create c = .error (.negativeGravity c.gravity) ↔ c.gravity < 0)
      ∧ (VerticalMotion.create c = .error (.negativeInitialHeight c.initialHeight)
          ↔ 0 ≤ c.gravity ∧ c.initialHeight < 0)
      ∧ (c.gravity = 0 →
          VerticalMotion.computeFlightTime (c.initialVelocity : ℝ) (c.initialHeight : ℝ)
            (c.gravity : ℝ) = ⊤) := by
  intro c
  refine ⟨⟨?_, ?_⟩, ⟨?_, ?_⟩, ⟨?_, ?_⟩, ?_⟩
  · rintro ⟨s, hs⟩
    unfold VerticalMotion.create at hs
    by_cases hg : c.gravity < 0
    · rw [if_pos hg] at hs
      exact absurd hs (by simp)
    · rw [if_neg hg] at hs
      by_cases hh : c.initialHeight < 0
      · rw [if_pos hh] at hs
        exact absurd hs (by simp)
      · exact ⟨not_lt.mp hg, not_lt.mp hh⟩
  · rintro ⟨h1, h2⟩
    refine
      ⟨{ initialVelocity := c.initialVelocity, initialHeight := c.initialHeight,
         gravity := c.gravity, time := 0, position := c.initialHeight,
         velocity := c.initialVelocity, maxHeight := c.initialHeight, isAtPeak := false,
         isGrounded := false, hasLaunched := false }, ?_⟩
    unfold VerticalMotion.create
    rw [if_neg (not_lt.mpr h1), if_neg (not_lt.mpr h2)]
  · intro h
    unfold VerticalMotion.create at h
    by_cases hg : c.gravity < 0
    · exact hg
    · rw [if_neg hg] at h
      by_cases hh : c.initialHeight < 0
      · rw [if_pos hh] at h
        exact absurd h (by simp)
      · rw [if_neg hh] at h
        exact absurd h (by simp)
  · intro hg
    unfold VerticalMotion.create
    rw [if_pos hg]
  · intro h
    unfold VerticalMotion.create at h
    by_cases hg : c.gravity < 0
    · rw [if_pos hg] at h
      exact absurd h (by simp)
    · rw [if_neg hg] at h
      by_cases hh : c.initialHeight < 0
      · exact ⟨not_lt.mp hg, hh⟩
      · rw [if_neg hh] at h
        exact absurd h (by simp)
  · rintro ⟨h1, h2⟩
    unfold VerticalMotion.create
    rw [if_neg (not_lt.mpr h1), if_pos h2]
  · intro hg0
    rw [hg0]
    unfold VerticalMotion.computeFlightTime
    rw [if_pos (by norm_num)]

/-- C7 witness: negative gravity is rejected with the gravity-naming
error. -/
theorem construction_validation_witness :
    VerticalMotion.create { initialVelocity := 0, initialHeight := 0, gravity := -1 }
      = .error (.negativeGravity (-1)) :=
  (construction_validation_amended
    { initialVelocity := 0, initialHeight := 0, gravity := -1 }).2.1.mpr (by norm_num)

/-- C8 counterexample: saveRun on an empty buffer is not a no-op: it bumps
the auto-label counter to 1 and appends an empty Run A. -/
theorem saveRun_empty_not_noop_cex :
    (Comparator.saveRun { frames := [], savedRuns := [], runCounter := 0 }
        none [] 0).runCounter = 1
    ∧ (Comparator.saveRun { frames := [], savedRuns := [], runCounter := 0 }
        none [] 0).savedRuns
        = [{ id := 0, label := "Run A", params := [], frames := [] }]
    ∧ (1 : ℕ) ≠ 0
    ∧ ([{ id := 0, label := "Run A", params := [], frames := [] }]
        : List Comparator.RecordedRun) ≠ [] := by
  decide

/-- C8 (amended): the empty-buffer guard lives in the panel: handleSave on
an empty buffer returns the state unchanged (so no run is added and the
counter is untouched), and on a non-empty buffer it defers to saveRun,
which itself appends unconditionally. -/
theorem empty_buffer_save_amended :
    ∀ (s : Comparator.CompareState) (params : List (String × ℚ)) (now : ℕ),
      (s.frames = [] → Comparator.handleSave s params now = s)
      ∧ (s.frames ≠ [] →
          Comparator.handleSave s params now = Comparator.saveRun s none params now) := by
  intro s params now
  constructor
  · intro h
    unfold Comparator.handleSave
    rw [if_pos h]
  · intro h
    unfold Comparator.handleSave
    rw [if_neg h]

/-- C8 witness: handleSave on a concrete empty-buffer state is the
identity. -/
theorem empty_buffer_save_witness :
    Comparator.handleSave { frames := [], savedRuns := [], runCounter := 3 } [] 7
      = { frames := [], savedRuns := [], runCounter := 3 } :=
  (empty_buffer_save_amended { frames := [], savedRuns := [], runCounter := 3 } [] 7).1 rfl

/-- C9: on a non-empty, time-sorted buffer the scan selects a frame of the
buffer whose distance to the requested time is minimal, and on ties it
selects the earliest such frame (the candidate is replaced only on strict
improvement); the selection is a pure function and mutates nothing. -/
theorem seek_closest_frame :
    ∀ (t : ℚ) (f0 : RecordedFrame) (rest : List RecordedFrame),
      (f0 :: rest).Pairwise (fun a b => a.time ≤ b.time) →
      ∃ c, Scrubber.closestFrame (f0 :: rest) t = some c
        ∧ c ∈ f0 :: rest
        ∧ (∀ f ∈ f0 :: rest, |c.time - t| ≤ |f.time - t|)
        ∧ (∀ f ∈ f0 :: rest, |f.time - t| = |c.time - t| → c.time ≤ f.time) := by
  intro t f0 rest hp
  exact ⟨rest.foldl (Scrubber.closerStep t) f0, rfl, Scrubber.foldl_closer_mem t rest f0,
    Scrubber.foldl_closer_min t rest f0,
    fun f hf heq => Scrubber.foldl_closer_tie t rest f0 hp f hf heq⟩

/-- C9 witness: between frames at times 0 and 1, seeking t = 1/2 is a tie
and the scan resolves it to the earlier frame. -/
theorem seek_closest_witness :
    ∃ c, Scrubber.closestFrame [({ time := 0 } : RecordedFrame), { time := 1 }] (1/2) = some c
      ∧ c ∈ [({ time := 0 } : RecordedFrame), { time := 1 }]
      ∧ (∀ f ∈ [({ time := 0 } : RecordedFrame), { time := 1 }],
          |c.time - 1/2| ≤ |f.time - 1/2|)
      ∧ (∀ f ∈ [({ time := 0 } : RecordedFrame), { time := 1 }],
          |f.time - 1/2| = |c.time - 1/2| → c.time ≤ f.time) :=
  seek_closest_frame (1/2) { time := 0 } [{ time := 1 }] (by decide)

/-- C10 counterexample: a grounded state ignores update entirely: from
v0 = 0, h0 = 0, g = 10 the first 1/20 tick grounds the body, and the next
call with deltaTime = 1/20 advances the clock by 0, not by
min(max(dt, 0), DT_CAP) = 1/20. -/
theorem grounded_update_time_cex :
    ((stateH0G10.update (1/20)).update (1/20)).time = (stateH0G10.update (1/20)).time
    ∧ (stateH0G10.update (1/20)).isGrounded = true
    ∧ min (max (1/20 : ℚ) 0) VerticalMotion.DT_CAP = 1/20
    ∧ (1/20 : ℚ) ≠ 0 := by
  have hdtc : min (max (1/20 : ℚ) 0) VerticalMotion.DT_CAP = 1/20 :=
    VerticalMotion.dtc_of_le (1/20) (by norm_num) (by norm_num [VerticalMotion.DT_CAP])
  have hg1 : (stateH0G10.update (1/20)).isGrounded = true := by
    rw [VerticalMotion.update_effective_clamp stateH0G10 (1/20) rfl
      (by rw [hdtc]; norm_num) (by rw [hdtc]; norm_num [stateH0G10])]
  exact ⟨by rw [VerticalMotion.update_of_grounded _ _ hg1], hg1, hdtc, by norm_num⟩

/-- C10 (amended): update never rewinds the clock and never advances it by
more than DT_CAP = 1/20 s; when the state is not grounded it advances the
clock by exactly min(max(deltaTime, 0), DT_CAP); a non-positive deltaTime
leaves the whole state unchanged; a grounded state is left unchanged no
matter the deltaTime. -/
theorem update_time_clamp_amended :
    ∀ (s : VerticalMotion.State) (dt : ℚ),
      s.time ≤ (s.update dt).time
      ∧ (s.update dt).time ≤ s.time + VerticalMotion.DT_CAP
      ∧ (s.isGrounded = false →
          (s.update dt).time = s.time + min (max dt 0) VerticalMotion.DT_CAP)
      ∧ (dt ≤ 0 → s.update dt = s)
      ∧ (s.isGrounded = true → s.update dt = s) := by
  intro s dt
  have h0 := VerticalMotion.dtc_nonneg dt
  have h1 := VerticalMotion.dtc_le_cap dt
  have hcap : (0 : ℚ) ≤ VerticalMotion.DT_CAP := by norm_num [VerticalMotion.DT_CAP]
  by_cases hgr : s.isGrounded = true
  · rw [VerticalMotion.update_of_grounded s dt hgr]
    refine ⟨le_refl _, by linarith, ?_, fun _ => rfl, fun _ => rfl⟩
    intro h
    rw [h] at hgr
    exact absurd hgr (by simp)
  · rw [Bool.not_eq_true] at hgr
    have hgr2 : ¬ s.isGrounded = true := by simp [hgr]
    by_cases hz : min (max dt 0) VerticalMotion.DT_CAP = 0
    · rw [VerticalMotion.update_of_dtc_zero s dt hz]
      exact ⟨le_refl _, by linarith, fun _ => by rw [hz]; ring, fun _ => rfl,
        fun h => absurd h hgr2⟩
    · have hdtneg : ¬ dt ≤ 0 := by
        intro hle
        exact hz (by rw [max_eq_right hle, min_eq_left hcap])
      by_cases hp : s.position + (s.velocity + (-s.gravity) * min (max dt 0)
          VerticalMotion.DT_CAP) * min (max dt 0) VerticalMotion.DT_CAP ≤ 0
      · rw [VerticalMotion.update_effective_clamp s dt hgr hz hp]
        exact ⟨by dsimp only; linarith, by dsimp only; linarith, fun _ => rfl,
          fun h => absurd h hdtneg, fun h => absurd h hgr2⟩
      · rw [VerticalMotion.update_effective_pos s dt hgr hz hp]
        exact ⟨by dsimp only; linarith, by dsimp only; linarith, fun _ => rfl,
          fun h => absurd h hdtneg, fun h => absurd h hgr2⟩

/-- C10 witness: a negative deltaTime leaves a concrete in-flight state
unchanged. -/
theorem update_time_clamp_witness :
    stateH1G10.update (-1) = stateH1G10 :=
  (update_time_clamp_amended stateH1G10 (-1)).2.2.2.1 (by norm_num)

end DotDynamics
